import Mathlib

/-!
Shallow embedding of the diceball matchmaking server (main.go).

The Go program keeps four pieces of shared state:
  players : map[string]*Player   -- the Player Registry
  pool    : []*Player            -- the Waiting Pool (FIFO)
  rooms   : map[string][]string  -- the Room Registry
Both the registry and the pool hold pointers to shared Player objects, so
the embedding uses an explicit heap of Player records addressed by Nat
references; the registry maps ids to references and the pool is a list of
references.  The OpponentID field is a capacity-one buffered channel,
modelled as an Option String slot: a send on an empty slot fills it, a
send on a full slot blocks forever (modelled as a stuck tick), a
non-blocking receive empties a full slot.

The HTTP handlers handleJoin / handleCancel / handleStatus, one iteration
of the matchPlayers loop body, one iteration of the cleanupOldRooms loop
body, and getStats / statsHandler are translated as pure state
transformers.  time.Now() and uuid.New().String() are environment inputs
and become parameters.
-/

/-- A Go Player struct: ID, Matched, CreatedAt, OpponentID (capacity-one
channel buffer), RoomID. -/
structure Player where
  id : String
  matched : Bool
  createdAt : Nat
  opponentID : Option String
  roomID : String
deriving DecidableEq, Repr

/-- The global mutable state of the server: the heap of Player objects,
the player registry (id to heap reference), the waiting pool (heap
references, front first) and the room registry (room id to member ids). -/
structure GState where
  heap : List Player
  players : List (String × Nat)
  pool : List Nat
  rooms : List (String × List String)
deriving DecidableEq, Repr

/-- Error kinds of the HTTP layer: 400 for a missing id, 404 for an
unknown player. -/
inductive Error where
  | invalidArgument
  | notFound
deriving DecidableEq, Repr

/-- JSON response of /join. -/
structure JoinResp where
  status : String
  playerID : String
deriving DecidableEq, Repr

/-- JSON response of /cancel. -/
structure CancelResp where
  status : String
deriving DecidableEq, Repr

/-- JSON response of /status/: either matched with opponent and room, or
waiting. -/
inductive StatusResp where
  | matched (opponentID : String) (roomID : String)
  | waiting
deriving DecidableEq, Repr

/-- The four counters of the ServerStats struct (Go int). -/
structure ServerStats where
  totalPlayers : Int
  waitingPlayers : Int
  matchedPlayers : Int
  activeRooms : Int
deriving DecidableEq, Repr

/-- The data rendered by statsHandler in main.go: the counters plus the
waiting-player list and a copy of the room registry. -/
structure StatsData where
  stats : ServerStats
  waitingPlayersList : List Player
  activeRoomsList : List (String × List String)
deriving DecidableEq, Repr

deriving instance DecidableEq for Except

/-- Lookup in a Go map modelled as an association list. -/
def mapFind? (k : String) : List (String × α) → Option α
  | [] => none
  | (k', v) :: rest => if k' = k then some v else mapFind? k rest

/-- Go two-valued map read: does the key exist. -/
def mapContains (k : String) (m : List (String × α)) : Bool :=
  (mapFind? k m).isSome

/-- Go map assignment m[k] = v: overwrites in place, else appends. -/
def mapInsert (k : String) (v : α) : List (String × α) → List (String × α)
  | [] => [(k, v)]
  | (k', v') :: rest =>
      if k' = k then (k, v) :: rest else (k', v') :: mapInsert k v rest

/-- Go delete(m, k): removes the key. -/
def mapDelete (k : String) : List (String × α) → List (String × α)
  | [] => []
  | (k', v') :: rest =>
      if k' = k then mapDelete k rest else (k', v') :: mapDelete k rest

/-- Does the pool entry r point at a Player whose ID equals id
(the comparison p.ID == playerID in handleCancel). -/
def poolHasId (heap : List Player) (id : String) (r : Nat) : Bool :=
  match heap.get? r with
  | some p => p.id == id
  | none => false

/-- The pool scan of handleCancel: remove the first entry whose Player
has the given ID, then break. -/
def poolRemoveFirst (heap : List Player) (id : String) : List Nat → List Nat
  | [] => []
  | r :: rs => if poolHasId heap id r then rs else r :: poolRemoveFirst heap id rs

/-- A send v into the capacity-one channel of the Player at reference r:
succeeds (fills the slot) when the buffer is empty, blocks forever (none)
when it is already full.  A dangling reference cannot arise in Go. -/
def chanSend (r : Nat) (v : String) (heap : List Player) : Option (List Player) :=
  match heap.get? r with
  | some p =>
      match p.opponentID with
      | none => some (heap.set r { p with opponentID := some v })
      | some _ => none
  | none => none

/-- handleJoin: empty id is a 400 error; otherwise a fresh Player
(Matched false, empty RoomID, fresh empty channel) is allocated,
inserted (overwriting) into the registry and appended to the back of the
pool; the reply is status waiting with the player id.  now stands for
time.Now(). -/
def handleJoin (id : String) (now : Nat) (s : GState) :
    Except Error JoinResp × GState :=
  if id = "" then (.error .invalidArgument, s)
  else
    (.ok { status := "waiting", playerID := id },
     { s with
        heap := s.heap ++ [{ id := id, matched := false, createdAt := now,
                             opponentID := none, roomID := "" }],
        players := mapInsert id s.heap.length s.players,
        pool := s.pool ++ [s.heap.length] })

/-- handleCancel: empty id is a 400 error; otherwise the id is deleted
from the registry, the first pool entry carrying that id is removed, and
the reply is status cancelled. -/
def handleCancel (id : String) (s : GState) :
    Except Error CancelResp × GState :=
  if id = "" then (.error .invalidArgument, s)
  else
    (.ok { status := "cancelled" },
     { s with
        players := mapDelete id s.players,
        pool := poolRemoveFirst s.heap id s.pool })

/-- handleStatus: empty id is a 400 error; an id absent from the registry
is a 404; otherwise a non-blocking receive on the player's channel either
yields the opponent id (reply matched with the player's RoomID, and the
player is deleted from the registry) or finds the buffer empty (reply
waiting, no side effect).  The dangling-reference branch cannot arise in
Go and is mapped to the 404 reply. -/
def handleStatus (id : String) (s : GState) :
    Except Error StatusResp × GState :=
  if id = "" then (.error .invalidArgument, s)
  else
    match mapFind? id s.players with
    | none => (.error .notFound, s)
    | some ref =>
        match s.heap.get? ref with
        | none => (.error .notFound, s)
        | some p =>
            match p.opponentID with
            | some opp =>
                (.ok (.matched opp p.roomID),
                 { s with
                    heap := s.heap.set ref { p with opponentID := none },
                    players := mapDelete id s.players })
            | none => (.ok .waiting, s)

/-- One iteration of the matchPlayers loop body, with the generated uuid
as parameter roomID.  With fewer than two pool entries nothing happens.
Otherwise the two front entries are dereferenced, both objects get the
room id and Matched = true, the pool drops its front two entries, the
room is recorded, and the two opponent ids are sent into the two
channels in order.  A blocked send or a dangling reference (impossible
in the running program) leaves the tick stuck (none). -/
def matchPlayersTick (roomID : String) (s : GState) : Option GState :=
  match s.pool with
  | r1 :: r2 :: rest =>
      match s.heap.get? r1, s.heap.get? r2 with
      | some p1, some p2 =>
          match chanSend r1 p2.id
              ((s.heap.set r1 { p1 with roomID := roomID, matched := true }).set
                r2 { p2 with roomID := roomID, matched := true }) with
          | some h3 =>
              match chanSend r2 p1.id h3 with
              | some h4 =>
                  some { heap := h4, players := s.players, pool := rest,
                         rooms := mapInsert roomID [p1.id, p2.id] s.rooms }
              | none => none
          | none => none
      | _, _ => none
  | _ => some s

/-- Is the room kept by cleanupOldRooms in main.go: both member ids must
still be in the registry (the room is deleted when either is absent).
Indexing roomPlayers[0] / roomPlayers[1] is total here; a member list
shorter than two (impossible in the running program) reads as absent. -/
def roomKept (players : List (String × Nat)) (members : List String) : Bool :=
  match members.get? 0, members.get? 1 with
  | some a, some b => mapContains a players && mapContains b players
  | _, _ => false

/-- One run of the cleanupOldRooms loop body of main.go: every room one
of whose two members is gone from the registry is deleted. -/
def cleanupOldRooms (s : GState) : GState :=
  { s with rooms := s.rooms.filter fun kv => roomKept s.players kv.2 }

/-- getStats: the four counters; MatchedPlayers is len(players) -
len(pool) computed in Go int arithmetic, with no lower bound. -/
def getStats (s : GState) : ServerStats :=
  { totalPlayers := (s.players.length : Int),
    waitingPlayers := (s.pool.length : Int),
    matchedPlayers := (s.players.length : Int) - (s.pool.length : Int),
    activeRooms := (s.rooms.length : Int) }

/-- statsHandler of main.go: under both locks it computes the counters,
the list of registry players with Matched false, and a copy of the room
map, then renders them; it writes no shared state, so the state component
passes through unchanged. -/
def statsHandler (s : GState) : StatsData × GState :=
  ({ stats := getStats s,
     waitingPlayersList :=
       s.players.filterMap fun kv =>
         match s.heap.get? kv.2 with
         | some p => if p.matched then none else some p
         | none => none,
     activeRoomsList := s.rooms }, s)

/-- The state at process start: all maps and slices empty. -/
def initState : GState :=
  { heap := [], players := [], pool := [], rooms := [] }

/-- One observable step of the system: any request handler invocation or
one background-loop iteration, with arbitrary environment inputs. -/
inductive Step : GState → GState → Prop where
  | join (id : String) (now : Nat) (s : GState) :
      Step s (handleJoin id now s).2
  | cancel (id : String) (s : GState) :
      Step s (handleCancel id s).2
  | poll (id : String) (s : GState) :
      Step s (handleStatus id s).2
  | tick (roomID : String) (s s' : GState) :
      matchPlayersTick roomID s = some s' → Step s s'
  | cleanup (s : GState) :
      Step s (cleanupOldRooms s)

/-- States reachable from process start by any interleaving of requests
and background iterations. -/
inductive Reachable : GState → Prop where
  | init : Reachable initState
  | step {s s' : GState} : Reachable s → Step s s' → Reachable s'

/-! ### Helper lemmas about the map, pool and heap operations -/

theorem get?_some_lt {l : List α} {i : Nat} {a : α} (h : l.get? i = some a) :
    i < l.length := by
  rcases List.get?_eq_some.mp h with ⟨hb, _⟩
  exact hb

theorem mapFind?_insert_self (k : String) (v : α) (m : List (String × α)) :
    mapFind? k (mapInsert k v m) = some v := by
  induction m with
  | nil => simp [mapInsert, mapFind?]
  | cons kv rest ih =>
      by_cases h : kv.1 = k <;> simp [mapInsert, mapFind?, h, ih]

theorem mapFind?_insert_ne (k j : String) (v : α) (m : List (String × α))
    (h : j ≠ k) : mapFind? j (mapInsert k v m) = mapFind? j m := by
  induction m with
  | nil => simp [mapInsert, mapFind?, Ne.symm h]
  | cons kv rest ih =>
      by_cases h1 : kv.1 = k
      · simp [mapInsert, mapFind?, h1, Ne.symm h]
      · simp [mapInsert, mapFind?, h1, ih]

theorem mapFind?_delete_self (k : String) (m : List (String × α)) :
    mapFind? k (mapDelete k m) = none := by
  induction m with
  | nil => simp [mapDelete, mapFind?]
  | cons kv rest ih =>
      by_cases h : kv.1 = k <;> simp [mapDelete, mapFind?, h, ih]

theorem mapFind?_delete_ne (k j : String) (m : List (String × α))
    (h : j ≠ k) : mapFind? j (mapDelete k m) = mapFind? j m := by
  induction m with
  | nil => simp [mapDelete]
  | cons kv rest ih =>
      by_cases h1 : kv.1 = k
      · simp [mapDelete, mapFind?, h1, Ne.symm h, ih]
      · simp [mapDelete, mapFind?, h1, ih]

theorem mapDelete_of_absent (k : String) (m : List (String × α))
    (h : mapFind? k m = none) : mapDelete k m = m := by
  induction m with
  | nil => simp [mapDelete]
  | cons kv rest ih =>
      by_cases h1 : kv.1 = k
      · simp [mapFind?, h1] at h
      · simp only [mapFind?, h1, if_false] at h
        simp [mapDelete, h1, ih h]

theorem poolRemoveFirst_sublist (heap : List Player) (id : String)
    (l : List Nat) : List.Sublist (poolRemoveFirst heap id l) l := by
  induction l with
  | nil => simp [poolRemoveFirst]
  | cons r rs ih =>
      unfold poolRemoveFirst
      split
      · exact List.sublist_cons_self r rs
      · exact List.Sublist.cons₂ r ih

theorem poolRemoveFirst_of_none (heap : List Player) (id : String)
    (l : List Nat) (h : l.countP (poolHasId heap id) = 0) :
    poolRemoveFirst heap id l = l := by
  induction l with
  | nil => rfl
  | cons r rs ih =>
      rw [List.countP_cons] at h
      unfold poolRemoveFirst
      split
      · next h1 =>
          rw [if_pos h1] at h
          omega
      · next h1 =>
          rw [if_neg h1] at h
          rw [ih (by omega)]

theorem countP_poolRemoveFirst (heap : List Player) (id : String)
    (l : List Nat) (h : l.countP (poolHasId heap id) ≤ 1) :
    (poolRemoveFirst heap id l).countP (poolHasId heap id) = 0 := by
  induction l with
  | nil => rfl
  | cons r rs ih =>
      rw [List.countP_cons] at h
      unfold poolRemoveFirst
      split
      · next h1 =>
          rw [if_pos h1] at h
          omega
      · next h1 =>
          rw [if_neg h1] at h
          rw [List.countP_cons, if_neg h1, ih (by omega)]

theorem chanSend_some {r : Nat} {v : String} {heap h' : List Player}
    (h : chanSend r v heap = some h') :
    ∃ p, heap.get? r = some p ∧ p.opponentID = none ∧
      h' = heap.set r { p with opponentID := some v } := by
  unfold chanSend at h
  split at h
  · next p hp =>
      split at h
      · next hslot =>
          exact ⟨p, hp, hslot, by injection h with h; exact h.symm⟩
      · exact absurd h (by simp)
  · exact absurd h (by simp)

/-! ### The pool invariant: every pool entry points at a live, unmatched
player with an empty result channel, and no object is referenced twice. -/

/-- Invariant of the waiting pool: references are pairwise distinct and
each points at a Player with Matched false and an empty channel buffer. -/
def PoolOk (s : GState) : Prop :=
  s.pool.Nodup ∧
  ∀ r ∈ s.pool, ∃ p, s.heap.get? r = some p ∧
    p.matched = false ∧ p.opponentID = none

theorem poolOk_init : PoolOk initState := by
  constructor
  · simp [initState]
  · intro r hr
    simp [initState] at hr

theorem poolOk_join (id : String) (now : Nat) (s : GState) (h : PoolOk s) :
    PoolOk (handleJoin id now s).2 := by
  unfold handleJoin
  split
  · exact h
  · obtain ⟨hnd, hmem⟩ := h
    constructor
    · rw [List.nodup_append]
      refine ⟨hnd, List.nodup_singleton _, ?_⟩
      intro r hr hr'
      rcases hmem r hr with ⟨p, hp, -, -⟩
      have hlt := get?_some_lt hp
      have : r = s.heap.length := by simpa using hr'
      omega
    · intro r hr
      rcases List.mem_append.mp hr with hr | hr
      · rcases hmem r hr with ⟨p, hp, h1, h2⟩
        refine ⟨p, ?_, h1, h2⟩
        rw [List.get?_append (get?_some_lt hp)]
        exact hp
      · have : r = s.heap.length := by simpa using hr
        subst this
        exact ⟨_, List.get?_concat_length _ _, rfl, rfl⟩

theorem poolOk_cancel (id : String) (s : GState) (h : PoolOk s) :
    PoolOk (handleCancel id s).2 := by
  unfold handleCancel
  split
  · exact h
  · obtain ⟨hnd, hmem⟩ := h
    constructor
    · exact hnd.sublist (poolRemoveFirst_sublist s.heap id s.pool)
    · intro r hr
      exact hmem r ((poolRemoveFirst_sublist s.heap id s.pool).subset hr)

theorem poolOk_poll (id : String) (s : GState) (h : PoolOk s) :
    PoolOk (handleStatus id s).2 := by
  obtain ⟨hnd, hmem⟩ := h
  unfold handleStatus
  split
  · exact ⟨hnd, hmem⟩
  · split
    · exact ⟨hnd, hmem⟩
    · next ref hfind =>
        split
        · exact ⟨hnd, hmem⟩
        · next p hp =>
            split
            · next opp hslot =>
                refine ⟨hnd, ?_⟩
                intro r hr
                rcases hmem r hr with ⟨q, hq, h1, h2⟩
                have hne : ref ≠ r := by
                  intro he
                  subst he
                  rw [hp] at hq
                  injection hq with hq
                  subst hq
                  rw [hslot] at h2
                  exact Option.noConfusion h2
                refine ⟨q, ?_, h1, h2⟩
                rw [List.get?_set_ne _ _ hne]
                exact hq
            · exact ⟨hnd, hmem⟩

theorem poolOk_tick (roomID : String) (s s' : GState)
    (ht : matchPlayersTick roomID s = some s') (h : PoolOk s) :
    PoolOk s' := by
  obtain ⟨hnd, hmem⟩ := h
  unfold matchPlayersTick at ht
  split at ht
  · next r1 r2 rest hpool =>
      split at ht
      · next p1 p2 hp1 hp2 =>
          split at ht
          · next h3 hs3 =>
              split at ht
              · next h4 hs4 =>
                  injection ht with ht
                  subst ht
                  rw [hpool] at hnd hmem
                  have hr1 : r1 ∉ rest := fun hh =>
                    (List.nodup_cons.mp hnd).1 (List.mem_cons_of_mem r2 hh)
                  have hr2 : r2 ∉ rest :=
                    (List.nodup_cons.mp (List.nodup_cons.mp hnd).2).1
                  constructor
                  · exact ((List.nodup_cons.mp (List.nodup_cons.mp hnd).2).2)
                  · intro r hr
                    have hner1 : r1 ≠ r := fun he => hr1 (he ▸ hr)
                    have hner2 : r2 ≠ r := fun he => hr2 (he ▸ hr)
                    rcases hmem r (List.mem_cons_of_mem r1
                      (List.mem_cons_of_mem r2 hr)) with ⟨q, hq, hq1, hq2⟩
                    rcases chanSend_some hs3 with ⟨a3, -, -, he3⟩
                    rcases chanSend_some hs4 with ⟨a4, -, -, he4⟩
                    refine ⟨q, ?_, hq1, hq2⟩
                    subst he4
                    subst he3
                    rw [List.get?_set_ne _ _ hner2, List.get?_set_ne _ _ hner1,
                        List.get?_set_ne _ _ hner2, List.get?_set_ne _ _ hner1]
                    exact hq
              · exact absurd ht (by simp)
          · exact absurd ht (by simp)
      · exact absurd ht (by simp)
  · next hpool =>
      injection ht with ht
      subst ht
      exact ⟨hnd, hmem⟩

theorem poolOk_cleanup (s : GState) (h : PoolOk s) :
    PoolOk (cleanupOldRooms s) := h

theorem poolOk_step {s s' : GState} (hs : Step s s') (h : PoolOk s) :
    PoolOk s' := by
  cases hs with
  | join id now => exact poolOk_join id now s h
  | cancel id => exact poolOk_cancel id s h
  | poll id => exact poolOk_poll id s h
  | tick roomID _ _ ht => exact poolOk_tick roomID s s' ht h
  | cleanup => exact poolOk_cleanup s h

theorem reachable_poolOk {s : GState} (h : Reachable s) : PoolOk s := by
  induction h with
  | init => exact poolOk_init
  | step _ hs ih => exact poolOk_step hs ih

/-! ### Concrete states used to instantiate the theorems -/

/-- State after a single join of player A at time 0. -/
def sA : GState := (handleJoin "A" 0 initState).2

/-- State after join A then join B: two distinct waiting players. -/
def sAB : GState := (handleJoin "B" 1 sA).2

/-- State after player A joins twice: the registry holds one entry for A
but the pool holds two references to two distinct A objects. -/
def sAA : GState := (handleJoin "A" 1 sA).2

/-- State after join A, join A, cancel A: the registry no longer knows A
but one pool entry carrying id A is left behind. -/
def sAAc : GState := (handleCancel "A" sAA).2

theorem reachable_sA : Reachable sA :=
  Reachable.step Reachable.init (Step.join "A" 0 initState)

theorem reachable_sAB : Reachable sAB :=
  Reachable.step reachable_sA (Step.join "B" 1 sA)

theorem reachable_sAA : Reachable sAA :=
  Reachable.step reachable_sA (Step.join "A" 1 sA)

theorem reachable_sAAc : Reachable sAAc :=
  Reachable.step reachable_sAA (Step.cancel "A" sAA)

/-- A player object whose result slot has been populated by a match. -/
def pM : Player :=
  { id := "A", matched := true, createdAt := 0,
    opponentID := some "B", roomID := "r1" }

/-- A state in which player A is registered and its result slot already
carries opponent B in room r1 (the situation right after a tick matched
A with B and B already polled, for instance). -/
def sPolled : GState :=
  { heap := [pM], players := [("A", 0)], pool := [],
    rooms := [("r1", ["A", "B"])] }

/-- A state with one room whose two members are both registered. -/
def sRoom : GState :=
  { heap := [], players := [("A", 0), ("B", 1)], pool := [],
    rooms := [("r1", ["A", "B"])] }

/-! ### Claim theorems -/

/-- Claim C8: in every state reachable by any sequence of joins, cancels,
polls, matching ticks and cleanup runs, no pool entry points at a player
whose Matched flag is true. -/
theorem claim_C8_pool_never_matched (s : GState) (h : Reachable s) :
    ∀ r ∈ s.pool, ∀ p, s.heap.get? r = some p → p.matched = false := by
  intro r hr p hp
  rcases (reachable_poolOk h).2 r hr with ⟨q, hq, hq1, -⟩
  rw [hp] at hq
  injection hq with hq
  rw [hq]
  exact hq1

theorem claim_C8_witness :
    Reachable sA ∧
    (∀ r ∈ sA.pool, ∀ p, sA.heap.get? r = some p → p.matched = false) :=
  ⟨reachable_sA, claim_C8_pool_never_matched sA reachable_sA⟩

/-- Claim C2: one run of the cleanup task keeps a room exactly when both
of its two member ids are still in the player registry, and deletes it
when at least one member id is absent (main.go uses the disjunction
!p1Exists || !p2Exists). -/
theorem claim_C2_cleanup (s : GState) (k a b : String)
    (h : (k, [a, b]) ∈ s.rooms) :
    ((k, [a, b]) ∈ (cleanupOldRooms s).rooms ↔
      (mapContains a s.players = true ∧ mapContains b s.players = true)) := by
  simp [cleanupOldRooms, List.mem_filter, h, roomKept, Bool.and_eq_true]

theorem claim_C2_witness :
    (("r1", ["A", "B"]) ∈ sRoom.rooms) ∧
    ((("r1", ["A", "B"]) ∈ (cleanupOldRooms sRoom).rooms ↔
      (mapContains "A" sRoom.players = true ∧
       mapContains "B" sRoom.players = true))) :=
  ⟨by decide, claim_C2_cleanup sRoom "r1" "A" "B" (by decide)⟩

/-- Claim C9: the snapshot handler returns the point-in-time counters and
lists and leaves the whole state (registry, pool, heap and room registry)
exactly as it found it. -/
theorem claim_C9_snapshot (s : GState) :
    (statsHandler s).2 = s ∧
    (statsHandler s).1.stats = getStats s ∧
    (statsHandler s).1.stats.totalPlayers = (s.players.length : Int) ∧
    (statsHandler s).1.stats.waitingPlayers = (s.pool.length : Int) ∧
    (statsHandler s).1.stats.matchedPlayers =
      (s.players.length : Int) - (s.pool.length : Int) ∧
    (statsHandler s).1.stats.activeRooms = (s.rooms.length : Int) ∧
    (statsHandler s).1.activeRoomsList = s.rooms :=
  ⟨rfl, rfl, rfl, rfl, rfl, rfl, rfl⟩

/-- Claim C10: getStats reports MatchedPlayers as len(players) - len(pool)
in Go int arithmetic with no lower bound, and in the reachable state
where the same id joined twice the snapshot reports -1. -/
theorem claim_C10_negative_stats :
    (∀ s : GState, (getStats s).matchedPlayers =
      (s.players.length : Int) - (s.pool.length : Int)) ∧
    Reachable sAA ∧
    (getStats sAA).matchedPlayers = -1 ∧
    (getStats sAA).totalPlayers = 1 ∧
    (getStats sAA).waitingPlayers = 2 :=
  ⟨fun _ => rfl, reachable_sAA, by decide, by decide, by decide⟩

/-- Claim C6: joining with an empty id fails with InvalidArgument and
changes nothing; joining with a non-empty id allocates a fresh Player
with Matched false, an empty room id and an empty result slot, overwrites
the registry entry with the new reference, appends the reference to the
back of the pool, and replies waiting with the id. -/
theorem claim_C6_join (id : String) (now : Nat) (s : GState) :
    (handleJoin "" now s = (.error .invalidArgument, s)) ∧
    (id ≠ "" →
      handleJoin id now s =
        (.ok { status := "waiting", playerID := id },
         { heap := s.heap ++ [{ id := id, matched := false, createdAt := now,
                                opponentID := none, roomID := "" }],
           players := mapInsert id s.heap.length s.players,
           pool := s.pool ++ [s.heap.length],
           rooms := s.rooms }) ∧
      mapFind? id (handleJoin id now s).2.players = some s.heap.length ∧
      (handleJoin id now s).2.heap.get? s.heap.length =
        some { id := id, matched := false, createdAt := now,
               opponentID := none, roomID := "" }) := by
  constructor
  · simp [handleJoin]
  · intro hid
    refine ⟨?_, ?_, ?_⟩
    · simp [handleJoin, hid]
    · simp [handleJoin, hid, mapFind?_insert_self]
    · simp [handleJoin, hid, List.get?_concat_length]

theorem claim_C6_witness :
    ("x" : String) ≠ "" ∧
    (handleJoin "x" 0 initState =
      (.ok { status := "waiting", playerID := "x" },
       { heap := initState.heap ++
           [{ id := "x", matched := false, createdAt := 0,
              opponentID := none, roomID := "" }],
         players := mapInsert "x" initState.heap.length initState.players,
         pool := initState.pool ++ [initState.heap.length],
         rooms := initState.rooms }) ∧
     mapFind? "x" (handleJoin "x" 0 initState).2.players =
       some initState.heap.length ∧
     (handleJoin "x" 0 initState).2.heap.get? initState.heap.length =
       some { id := "x", matched := false, createdAt := 0,
              opponentID := none, roomID := "" }) :=
  ⟨by decide, (claim_C6_join "x" 0 initState).2 (by decide)⟩

/-- Claim C7 counterexample: in the reachable state after join A, join A,
cancel A, the id A is absent from the registry, yet cancelling it again
still mutates the pool (the leftover duplicate entry is removed), so a
cancel of an absent id is not always free of observable side effects. -/
theorem claim_C7_cex :
    Reachable sAAc ∧
    mapFind? "A" sAAc.players = none ∧
    (handleCancel "A" sAAc).1 = .ok { status := "cancelled" } ∧
    sAAc.pool = [1] ∧
    (handleCancel "A" sAAc).2.pool = [] ∧
    (handleCancel "A" sAAc).2 ≠ sAAc :=
  ⟨reachable_sAAc, by decide, by decide, by decide, by decide, by decide⟩

/-- Claim C7 (amended): for every non-empty id, Cancel replies cancelled,
deletes the id from the registry, removes the first pool entry carrying
the id, and touches nothing else; when the id is absent from the registry
and has no pool entry, Cancel is a perfect no-op and a second Cancel
gives the same cancelled reply on the same state; when the id occurs at
most once in the pool, no entry with that id survives the Cancel. -/
theorem claim_C7_cancel (id : String) (s : GState) (hid : id ≠ "") :
    ((handleCancel id s).1 = .ok { status := "cancelled" }) ∧
    (mapFind? id (handleCancel id s).2.players = none) ∧
    ((handleCancel id s).2.pool = poolRemoveFirst s.heap id s.pool) ∧
    ((handleCancel id s).2.rooms = s.rooms) ∧
    ((handleCancel id s).2.heap = s.heap) ∧
    (mapFind? id s.players = none →
      s.pool.countP (poolHasId s.heap id) = 0 →
      handleCancel id s = (.ok { status := "cancelled" }, s) ∧
      handleCancel id (handleCancel id s).2 =
        (.ok { status := "cancelled" }, s)) ∧
    (s.pool.countP (poolHasId s.heap id) ≤ 1 →
      (handleCancel id s).2.pool.countP (poolHasId s.heap id) = 0) := by
  have hmain : handleCancel id s =
      (.ok { status := "cancelled" },
       { s with players := mapDelete id s.players,
                pool := poolRemoveFirst s.heap id s.pool }) := by
    simp [handleCancel, hid]
  refine ⟨by rw [hmain], ?_, by rw [hmain], by rw [hmain], by rw [hmain],
    ?_, ?_⟩
  · rw [hmain]
    exact mapFind?_delete_self id s.players
  · intro habs hcnt
    have hstate : handleCancel id s = (.ok { status := "cancelled" }, s) := by
      rw [hmain, mapDelete_of_absent id s.players habs,
        poolRemoveFirst_of_none s.heap id s.pool hcnt]
    exact ⟨hstate, by rw [hstate, hstate]⟩
  · intro hcnt
    rw [hmain]
    exact countP_poolRemoveFirst s.heap id s.pool hcnt

theorem claim_C7_witness :
    handleCancel "Z" initState = (.ok { status := "cancelled" }, initState) ∧
    handleCancel "Z" (handleCancel "Z" initState).2 =
      (.ok { status := "cancelled" }, initState) :=
  (claim_C7_cancel "Z" initState (by decide)).2.2.2.2.2.1 rfl rfl

/-- Claim C3 counterexample: for the empty id, which is never in the
registry, Poll fails with InvalidArgument (HTTP 400, ID is required)
rather than NotFound, so NotFound is not equivalent to absence over all
ids. -/
theorem claim_C3_cex :
    mapFind? "" initState.players = none ∧
    (handleStatus "" initState).1 = Except.error Error.invalidArgument ∧
    (handleStatus "" initState).1 ≠ Except.error Error.notFound :=
  ⟨rfl, rfl, by decide⟩

/-- Claim C3 (amended to non-empty ids): for every non-empty id whose
registry reference is live, Poll fails with NotFound exactly when the id
is absent from the registry (with no state change); when present with a
populated slot it replies matched with the opponent id and the player's
room id, removes the player from the registry, consumes the slot, and
leaves the pool and the room registry untouched; when present with an
empty slot it replies waiting and changes nothing. -/
theorem claim_C3_poll_spec (id : String) (s : GState) (hid : id ≠ "")
    (hwf : ∀ ref, mapFind? id s.players = some ref →
      ∃ p, s.heap.get? ref = some p) :
    (mapFind? id s.players = none →
      handleStatus id s = (.error .notFound, s)) ∧
    ((handleStatus id s).1 = .error .notFound →
      mapFind? id s.players = none) ∧
    (∀ ref p opp, mapFind? id s.players = some ref →
      s.heap.get? ref = some p → p.opponentID = some opp →
      handleStatus id s =
        (.ok (.matched opp p.roomID),
         { s with heap := s.heap.set ref { p with opponentID := none },
                  players := mapDelete id s.players }) ∧
      mapFind? id (handleStatus id s).2.players = none ∧
      (handleStatus id s).2.pool = s.pool ∧
      (handleStatus id s).2.rooms = s.rooms) ∧
    (∀ ref p, mapFind? id s.players = some ref →
      s.heap.get? ref = some p → p.opponentID = none →
      handleStatus id s = (.ok .waiting, s)) := by
  refine ⟨?_, ?_, ?_, ?_⟩
  · intro h
    simp [handleStatus, hid, h]
  · intro h
    cases hfind : mapFind? id s.players with
    | none => rfl
    | some ref =>
        rcases hwf ref hfind with ⟨p, hp⟩
        have hp2 : s.heap[ref]? = some p := by
          rw [← List.get?_eq_getElem?]
          exact hp
        cases hslot : p.opponentID with
        | some opp => simp [handleStatus, hid, hfind, hp2, hslot] at h
        | none => simp [handleStatus, hid, hfind, hp2, hslot] at h
  · intro ref p opp h1 h2 h3
    have h4 : s.heap[ref]? = some p := by
      rw [← List.get?_eq_getElem?]
      exact h2
    have hmain : handleStatus id s =
        (.ok (.matched opp p.roomID),
         { s with heap := s.heap.set ref { p with opponentID := none },
                  players := mapDelete id s.players }) := by
      simp [handleStatus, hid, h1, h4, h3]
    exact ⟨hmain, by rw [hmain]; exact mapFind?_delete_self id s.players,
      by rw [hmain], by rw [hmain]⟩
  · intro ref p h1 h2 h3
    have h4 : s.heap[ref]? = some p := by
      rw [← List.get?_eq_getElem?]
      exact h2
    simp [handleStatus, hid, h1, h4, h3]

theorem claim_C3_witness :
    handleStatus "A" sPolled =
      (.ok (.matched "B" "r1"),
       { sPolled with
          heap := sPolled.heap.set 0 { pM with opponentID := none },
          players := mapDelete "A" sPolled.players }) ∧
    mapFind? "A" (handleStatus "A" sPolled).2.players = none ∧
    (handleStatus "A" sPolled).2.pool = sPolled.pool ∧
    (handleStatus "A" sPolled).2.rooms = sPolled.rooms :=
  (claim_C3_poll_spec "A" sPolled (by decide)
    (fun ref h => by
      have h0 : (some 0 : Option Nat) = some ref := by rw [← h]; rfl
      injection h0 with h0
      rw [← h0]
      exact ⟨pM, rfl⟩)).2.2.1 0 pM "B" rfl rfl rfl

/-- Claim C5: a registered player with a populated result slot is polled
successfully exactly once: the first Poll replies matched with the
opponent and room id, and every later Poll on the same id finds the
registry entry gone and fails with NotFound, leaving the state fixed.
The id of a registered player is non-empty, since joins reject the empty
id. -/
theorem claim_C5_consume_once (id : String) (s : GState) (ref : Nat)
    (p : Player) (opp : String) (hid : id ≠ "")
    (h1 : mapFind? id s.players = some ref)
    (h2 : s.heap.get? ref = some p) (h3 : p.opponentID = some opp) :
    ∃ s', handleStatus id s = (.ok (.matched opp p.roomID), s') ∧
      handleStatus id s' = (.error .notFound, s') := by
  have h4 : s.heap[ref]? = some p := by
    rw [← List.get?_eq_getElem?]
    exact h2
  refine ⟨{ s with heap := s.heap.set ref { p with opponentID := none },
                   players := mapDelete id s.players }, ?_, ?_⟩
  · simp [handleStatus, hid, h1, h4, h3]
  · simp [handleStatus, hid, mapFind?_delete_self]

theorem claim_C5_witness :
    ∃ s', handleStatus "A" sPolled = (.ok (.matched "B" "r1"), s') ∧
      handleStatus "A" s' = (.error .notFound, s') :=
  claim_C5_consume_once "A" sPolled 0 pM "B" (by decide) rfl rfl rfl

/-- A send into a channel known to be empty succeeds and fills the slot. -/
theorem chanSend_empty {heap : List Player} {r : Nat} {p : Player}
    (hp : heap.get? r = some p) (he : p.opponentID = none) (v : String) :
    chanSend r v heap = some (heap.set r { p with opponentID := some v }) := by
  simp only [chanSend, hp, he]

/-- Computation of one successful matching tick: with two live, distinct
front pool references whose players have empty result slots, the tick
returns exactly the state with both players marked, the pool shortened by
its front two entries, the room recorded, and both slots filled. -/
theorem matchTick_front (s : GState) (roomID : String) (r1 r2 : Nat)
    (rest : List Nat) (p1 p2 : Player)
    (hpool : s.pool = r1 :: r2 :: rest)
    (h1 : s.heap.get? r1 = some p1) (h2 : s.heap.get? r2 = some p2)
    (hrr : r1 ≠ r2) (e1 : p1.opponentID = none) (e2 : p2.opponentID = none) :
    matchPlayersTick roomID s = some
      { heap := (((s.heap.set r1 ⟨p1.id, true, p1.createdAt, p1.opponentID,
            roomID⟩).set r2 ⟨p2.id, true, p2.createdAt, p2.opponentID,
            roomID⟩).set r1 ⟨p1.id, true, p1.createdAt, some p2.id,
            roomID⟩).set r2 ⟨p2.id, true, p2.createdAt, some p1.id, roomID⟩,
        players := s.players, pool := rest,
        rooms := mapInsert roomID [p1.id, p2.id] s.rooms } := by
  have hl1 : r1 < s.heap.length := get?_some_lt h1
  have hg1 : ((s.heap.set r1 (⟨p1.id, true, p1.createdAt, p1.opponentID,
      roomID⟩ : Player)).set r2 ⟨p2.id, true, p2.createdAt, p2.opponentID,
      roomID⟩).get? r1 =
      some ⟨p1.id, true, p1.createdAt, p1.opponentID, roomID⟩ := by
    rw [List.get?_set_ne _ _ (Ne.symm hrr), List.get?_set_eq_of_lt _ hl1]
  have hg2 : (((s.heap.set r1 (⟨p1.id, true, p1.createdAt, p1.opponentID,
      roomID⟩ : Player)).set r2 ⟨p2.id, true, p2.createdAt, p2.opponentID,
      roomID⟩).set r1 ⟨p1.id, true, p1.createdAt, some p2.id,
      roomID⟩).get? r2 =
      some ⟨p2.id, true, p2.createdAt, p2.opponentID, roomID⟩ := by
    rw [List.get?_set_ne _ _ hrr,
      List.get?_set_eq_of_lt _ (by simpa using get?_some_lt h2)]
  have hs1 := chanSend_empty hg1 e1 p2.id
  have hs2 := chanSend_empty hg2 e2 p1.id
  rcases s with ⟨heap, players, pool, rooms⟩
  dsimp only at hpool h1 h2 hs1 hs2 ⊢
  subst hpool
  simp only [matchPlayersTick, h1, h2, hs1, hs2]

/-- Claim C4: on every reachable state, a tick with fewer than two pool
entries changes nothing, and a tick with at least two entries removes
exactly the two front-most entries (strict FIFO), marks exactly those two
players matched with the generated room id and each other's id in the
result slot, records the room, touches no other player and no other room,
and leaves the registry untouched — one pairing per tick. -/
theorem claim_C4_tick (s : GState) (roomID : String) (hs : Reachable s) :
    (s.pool.length < 2 → matchPlayersTick roomID s = some s) ∧
    (∀ r1 r2 rest, s.pool = r1 :: r2 :: rest →
      ∃ p1 p2 s', s.heap.get? r1 = some p1 ∧ s.heap.get? r2 = some p2 ∧
        matchPlayersTick roomID s = some s' ∧
        s'.pool = rest ∧
        s'.heap.get? r1 = some { p1 with
          matched := true
          roomID := roomID
          opponentID := some p2.id } ∧
        s'.heap.get? r2 = some { p2 with
          matched := true
          roomID := roomID
          opponentID := some p1.id } ∧
        s'.players = s.players ∧
        mapFind? roomID s'.rooms = some [p1.id, p2.id] ∧
        (∀ r, r ≠ r1 → r ≠ r2 → s'.heap.get? r = s.heap.get? r) ∧
        (∀ k, k ≠ roomID → mapFind? k s'.rooms = mapFind? k s.rooms)) := by
  obtain ⟨hnd, hmem⟩ := reachable_poolOk hs
  constructor
  · intro hlen
    rcases hq : s.pool with _ | ⟨a, _ | ⟨b, t⟩⟩
    · simp [matchPlayersTick, hq]
    · simp [matchPlayersTick, hq]
    · rw [hq] at hlen
      simp at hlen
      omega
  · intro r1 r2 rest hpool
    have hm1 : r1 ∈ s.pool := by
      rw [hpool]
      exact List.mem_cons_self _ _
    have hm2 : r2 ∈ s.pool := by
      rw [hpool]
      exact List.mem_cons_of_mem _ (List.mem_cons_self _ _)
    rcases hmem r1 hm1 with ⟨p1, hp1, -, he1⟩
    rcases hmem r2 hm2 with ⟨p2, hp2, -, he2⟩
    have hrr : r1 ≠ r2 := by
      rw [hpool] at hnd
      intro he
      exact (List.nodup_cons.mp hnd).1 (he ▸ List.mem_cons_self r2 rest)
    have hl1 : r1 < s.heap.length := get?_some_lt hp1
    have hl2 : r2 < s.heap.length := get?_some_lt hp2
    have hmain := matchTick_front s roomID r1 r2 rest p1 p2 hpool hp1 hp2
      hrr he1 he2
    refine ⟨p1, p2, _, hp1, hp2, hmain, rfl, ?_, ?_, rfl,
      mapFind?_insert_self roomID [p1.id, p2.id] s.rooms, ?_,
      fun k hk => mapFind?_insert_ne roomID k [p1.id, p2.id] s.rooms hk⟩
    · show ((((s.heap.set r1 _).set r2 _).set r1 _).set r2 _).get? r1 = _
      rw [List.get?_set_ne _ _ (Ne.symm hrr),
        List.get?_set_eq_of_lt _ (by simpa using hl1)]
    · show ((((s.heap.set r1 _).set r2 _).set r1 _).set r2 _).get? r2 = _
      rw [List.get?_set_eq_of_lt _ (by simpa using hl2)]
    · intro r hr1 hr2
      show ((((s.heap.set r1 _).set r2 _).set r1 _).set r2 _).get? r = _
      rw [List.get?_set_ne _ _ fun he => hr2 he.symm,
        List.get?_set_ne _ _ fun he => hr1 he.symm,
        List.get?_set_ne _ _ fun he => hr2 he.symm,
        List.get?_set_ne _ _ fun he => hr1 he.symm]

theorem claim_C4_witness :
    ∃ p1 p2 s', sAB.heap.get? 0 = some p1 ∧ sAB.heap.get? 1 = some p2 ∧
      matchPlayersTick "r0" sAB = some s' ∧
      s'.pool = [] ∧
      s'.heap.get? 0 = some { p1 with
        matched := true
        roomID := "r0"
        opponentID := some p2.id } ∧
      s'.heap.get? 1 = some { p2 with
        matched := true
        roomID := "r0"
        opponentID := some p1.id } ∧
      s'.players = sAB.players ∧
      mapFind? "r0" s'.rooms = some [p1.id, p2.id] ∧
      (∀ r, r ≠ 0 → r ≠ 1 → s'.heap.get? r = sAB.heap.get? r) ∧
      (∀ k, k ≠ "r0" → mapFind? k s'.rooms = mapFind? k sAB.rooms) :=
  (claim_C4_tick sAB "r0" reachable_sAB).2 0 1 [] rfl

/-- Claim C1 counterexample: after the same id A joins twice (a sequence
of joins the claim explicitly includes), both pool entries carry id A,
and the next tick creates the room with member list A, A — a player
matched with its own id, so the two member ids of a created room are not
always distinct. -/
theorem claim_C1_cex :
    Reachable sAA ∧
    (matchPlayersTick "r0" sAA).map (fun s => mapFind? "r0" s.rooms) =
      some (some ["A", "A"]) :=
  ⟨reachable_sAA, by decide⟩

/-- Claim C1 (amended): every room a tick creates holds exactly two
member entries, namely the ids of the two front pool players, and the
only change to the room registry is that one new room; the two member
ids are distinct whenever the two front pool entries carry distinct ids
— which holds for every prior sequence of joins and cancels of pairwise
distinct ids, but fails when the same id has joined twice and both
entries reached the front. -/
theorem claim_C1_room_pair (s : GState) (roomID : String) (r1 r2 : Nat)
    (rest : List Nat) (p1 p2 : Player)
    (hpool : s.pool = r1 :: r2 :: rest)
    (h1 : s.heap.get? r1 = some p1) (h2 : s.heap.get? r2 = some p2)
    (hrr : r1 ≠ r2) (e1 : p1.opponentID = none) (e2 : p2.opponentID = none)
    (hne : p1.id ≠ p2.id) :
    ∃ s', matchPlayersTick roomID s = some s' ∧
      mapFind? roomID s'.rooms = some [p1.id, p2.id] ∧
      [p1.id, p2.id].length = 2 ∧ p1.id ≠ p2.id ∧
      (∀ k, k ≠ roomID → mapFind? k s'.rooms = mapFind? k s.rooms) :=
  ⟨_, matchTick_front s roomID r1 r2 rest p1 p2 hpool h1 h2 hrr e1 e2,
    mapFind?_insert_self roomID [p1.id, p2.id] s.rooms, rfl, hne,
    fun k hk => mapFind?_insert_ne roomID k [p1.id, p2.id] s.rooms hk⟩

theorem claim_C1_witness :
    ∃ s', matchPlayersTick "r0" sAB = some s' ∧
      mapFind? "r0" s'.rooms = some ["A", "B"] ∧
      (["A", "B"] : List String).length = 2 ∧ ("A" : String) ≠ "B" ∧
      (∀ k, k ≠ "r0" → mapFind? k s'.rooms = mapFind? k sAB.rooms) :=
  claim_C1_room_pair sAB "r0" 0 1 []
    ⟨"A", false, 0, none, ""⟩ ⟨"B", false, 1, none, ""⟩
    rfl rfl rfl (by decide) rfl rfl (by decide)
